import Mathlib

/-!
# Verification of the hvpp virtual-CPU core

A shallow embedding of the hvpp hypervisor core (`hypervisor.cpp`,
`vcpu.cpp`, `vcpu.h`, `lib/win32/device.cpp`) together with proofs of the
documented properties of its state machine, exit-dispatch routine,
pending-interrupt queue, EPT-selection logic, orchestrator flag discipline
and device front end.

Modelling conventions:

* Machine registers and VMCS fields that the modelled routines read or
  write are carried explicitly (`hw_state_t`, fields of `vcpu_t`); hardware
  instructions whose only relevant effect is that they were executed
  (fxsave, invept, vmxoff, ...) are recorded in an event trace.
* Hardware instructions that can fail (`vmxon`, `vmclear`, `vmptrld`,
  `vmlaunch`) are driven by a success oracle, except that `vmxon` also
  requires the processor not to be in VMX-root mode already and `vmlaunch`
  requires it to be in VMX-root mode.
* `hvpp_assert` is modelled with its debug-build semantics: a failed
  assertion is a fatal fault; the machine stops (every later operation is
  a no-op).  For `hypervisor::start`/`stop`, which pair each assertion
  with an explicit guarded error return, the explicit guard is modelled.
* The VM-exit handler is external code that acts on the vcpu only through
  its public interface; a handler invocation is therefore modelled as a
  list of public-interface actions (`hact`).
-/

namespace Hvpp

/-- Lifecycle states of a virtual CPU (`enum class vcpu_state` in vcpu.h). -/
inductive vcpu_state where
  | off
  | initializing
  | launching
  | running
  | terminating
  | terminated
deriving DecidableEq

/-- Numeric value of a `vcpu_state` enumerator (the enum has no explicit
values, so they are 0..5 in declaration order).  `guest_context_.capture()`
returns such a value as a raw integer. -/
def vcpu_state.code : vcpu_state → Nat
  | .off          => 0
  | .initializing => 1
  | .launching    => 2
  | .running      => 3
  | .terminating  => 4
  | .terminated   => 5

/-- The successor in the chain `off → initializing → launching → running →
terminating → terminated` that the specification document states. -/
def chain_next : vcpu_state → Option vcpu_state
  | .off          => some .initializing
  | .initializing => some .launching
  | .launching    => some .running
  | .running      => some .terminating
  | .terminating  => some .terminated
  | .terminated   => none

/-- An interrupt descriptor (`class interrupt_t` in vcpu.h): vector,
delivery type, validity and error-code information and an
instruction-pointer adjustment. -/
structure interrupt_t where
  vector : Nat
  type : Nat
  valid : Bool
  error_code_valid : Bool
  error_code : Nat
  rip_adjust : Int
deriving DecidableEq, Inhabited

/-- A per-instance EPT object; the core only reads its hardware-loadable
pointer (`ept_t::ept_pointer()`). -/
structure ept_t where
  ept_pointer : Nat
deriving DecidableEq, Inhabited

/-- `vcpu_t::pending_interrupt_queue_size` (vcpu.h). -/
def pending_interrupt_queue_size : Nat := 16

/-- The host-visible machine registers that the modelled routines touch. -/
structure hw_state_t where
  gdtr : Nat
  idtr : Nat
  cr3 : Nat
  cr4_vmx_enable : Bool
  vmx_root : Bool
deriving DecidableEq

/-- Hardware-touching steps recorded in execution order. -/
inductive hw_event where
  | fxsave
  | fxrestore
  | write_cr4
  | vmxon
  | vmclear
  | vmptrld
  | vmlaunch
  | invvpid_all_contexts
  | invept_all_contexts
  | write_gdtr
  | write_idtr
  | write_cr3
  | vmxoff
  | write_guest_rsp
  | write_guest_rip
  | write_guest_rflags
  | write_ept_pointer
deriving DecidableEq

/-- The fields of `class vcpu_t` (vcpu.h) that the modelled routines use:
the guest/exit context pair, the stack's machine frame, the VMCS guest
and control fields read or written by vcpu.cpp, the lifecycle state, the
EPT array with active index and count, the pending-interrupt ring and the
one-shot RIP-adjust suppression flag. -/
structure vcpu_t where
  guest_context_rax : Nat
  exit_context_rip : Nat
  exit_context_rsp : Nat
  exit_context_rflags : Nat
  machine_frame_rip : Nat
  machine_frame_rsp : Nat
  guest_rip : Nat
  guest_rsp : Nat
  guest_rflags : Nat
  guest_gdtr : Nat
  guest_idtr : Nat
  guest_cr3 : Nat
  host_gdtr : Nat
  host_idtr : Nat
  host_cr3 : Nat
  host_rsp : Nat
  host_rip : Nat
  vcpu_id : Nat
  vmcs_link_pointer : Nat
  procbased_ctls2_enable_ept : Bool
  ept_pointer : Nat
  exit_instruction_length : Nat
  state_ : vcpu_state
  ept_ : Option (List ept_t)
  ept_count_ : Nat
  ept_index_ : Nat
  pending_interrupt_ : Fin 16 → interrupt_t
  pending_interrupt_first_ : Nat
  pending_interrupt_count_ : Nat
  suppress_rip_adjust_ : Bool

/-- Reduce a ring position to an index of the 16-entry array. -/
def qidx (n : Nat) : Fin 16 := ⟨n % 16, Nat.mod_lt _ (by decide)⟩

/-- Modelled from the spec: the body of `vcpu_t::interrupt_inject` is not
among the provided sources (vcpu.h only declares it, together with the
ring-buffer representation `pending_interrupt_` /
`pending_interrupt_first_` / `pending_interrupt_count_`).  Per §4.4 of the
specification it fails (returns false) when the queue is full, and
otherwise enqueues at the tail, or at the head when `first` is true,
never overwriting existing entries. -/
def interrupt_inject (v : vcpu_t) (intr : interrupt_t) (first : Bool) :
    Bool × vcpu_t :=
  if v.pending_interrupt_count_ = pending_interrupt_queue_size then
    (false, v)
  else if first then
    let i := qidx (v.pending_interrupt_first_ + 15)
    (true, { v with
      pending_interrupt_ := Function.update v.pending_interrupt_ i intr
      pending_interrupt_first_ := i.val
      pending_interrupt_count_ := v.pending_interrupt_count_ + 1 })
  else
    let i := qidx (v.pending_interrupt_first_ + v.pending_interrupt_count_)
    (true, { v with
      pending_interrupt_ := Function.update v.pending_interrupt_ i intr
      pending_interrupt_count_ := v.pending_interrupt_count_ + 1 })

/-- Modelled from the spec: the head-dequeue step of
`vcpu_t::interrupt_inject_pending` (its body is likewise not among the
provided sources): remove and return the head descriptor of the FIFO. -/
def interrupt_dequeue (v : vcpu_t) : interrupt_t × vcpu_t :=
  (v.pending_interrupt_ (qidx v.pending_interrupt_first_),
   { v with
     pending_interrupt_first_ := (v.pending_interrupt_first_ + 1) % 16
     pending_interrupt_count_ := v.pending_interrupt_count_ - 1 })

/-- The queued descriptors in dequeue order (abstraction of the ring). -/
def pending_list (v : vcpu_t) : List interrupt_t :=
  (List.range v.pending_interrupt_count_).map
    (fun k => v.pending_interrupt_ (qidx (v.pending_interrupt_first_ + k)))

/-- Representation invariant of the pending-interrupt ring. -/
def queue_wf (v : vcpu_t) : Prop :=
  v.pending_interrupt_count_ ≤ pending_interrupt_queue_size

/-- The whole modelled machine: the vcpu object, the host-visible machine
registers, a fatal-fault flag (set by a failed `hvpp_assert`), the log of
assignments to `state_` (as pairs: value before, value assigned) and the
trace of hardware-touching steps. -/
structure machine_t where
  v : vcpu_t
  hw : hw_state_t
  faulted : Bool
  slog : List (vcpu_state × vcpu_state)
  trace : List hw_event

/-- Record a hardware-touching step. -/
def emit (m : machine_t) (e : hw_event) : machine_t :=
  if m.faulted then m else { m with trace := m.trace ++ [e] }

/-- Mutate the vcpu object (no-op once the machine has faulted). -/
def updV (m : machine_t) (f : vcpu_t → vcpu_t) : machine_t :=
  if m.faulted then m else { m with v := f m.v }

/-- Assignment to `state_`, recorded in the state log. -/
def assign_state (m : machine_t) (s : vcpu_state) : machine_t :=
  if m.faulted then m
  else { m with
    v := { m.v with state_ := s }
    slog := m.slog ++ [(m.v.state_, s)] }

/-- `hvpp_assert`, debug-build semantics: a failed assertion is a fatal
fault that stops the machine. -/
def hvpp_assert (m : machine_t) (b : Bool) : machine_t :=
  if m.faulted then m else if b then m else { m with faulted := true }

/-- `vcpu_t::terminate` (vcpu.cpp).  Asserts the state is neither `off`
nor `terminated`; then advances the saved exit-context RIP past the
triggering instruction, restores the true GDTR/IDTR and the guest CR3,
flushes translation caches with INVVPID/INVEPT (all-contexts), executes
VMXOFF, clears CR4.VMXE and finally sets the state to `terminated`.  The
effects are stated as one record update; `trace` keeps their order. -/
def terminate (m : machine_t) : machine_t :=
  if m.faulted then m
  else if m.v.state_ = vcpu_state.off ∨ m.v.state_ = vcpu_state.terminated then
    { m with faulted := true }
  else
    { m with
      v := { m.v with
        exit_context_rip := m.v.exit_context_rip + m.v.exit_instruction_length
        state_ := vcpu_state.terminated }
      hw := { m.hw with
        gdtr := m.v.guest_gdtr
        idtr := m.v.guest_idtr
        cr3 := m.v.guest_cr3
        vmx_root := false
        cr4_vmx_enable := false }
      slog := m.slog ++ [(m.v.state_, vcpu_state.terminated)]
      trace := m.trace ++ [.write_gdtr, .write_idtr, .write_cr3,
        .invvpid_all_contexts, .invept_all_contexts, .vmxoff, .write_cr4] }

/-- `vcpu_t::error` (vcpu.cpp): log the VMX instruction error, break into
the debugger (both without modelled effect) and call `terminate()`. -/
def error (m : machine_t) : machine_t :=
  terminate m

/-- `vcpu_t::ept_index(uint16_t)` (vcpu.cpp): assert `index < ept_count_`,
then load the selected instance's EPT pointer into the VMCS field and set
the active index. -/
def ept_index (m : machine_t) (index : Nat) : machine_t :=
  let m := hvpp_assert m (decide (index < m.v.ept_count_))
  let m := emit
    (updV m (fun v =>
      { v with ept_pointer := ((v.ept_.getD []).getD index default).ept_pointer }))
    .write_ept_pointer
  updV m (fun v => { v with ept_index_ := index })

/-- `vcpu_t::ept_enable` (vcpu.cpp): assert not already enabled and a
positive count; allocate the instances (allocation oracle `alloc`), set
the secondary-controls EPT bit and select index 0. -/
def ept_enable (m : machine_t) (count : Nat) (alloc : Nat → ept_t) : machine_t :=
  let m := hvpp_assert m (m.v.ept_.isNone && decide (0 < count))
  let m := updV m (fun v =>
    { v with ept_ := some ((List.range count).map alloc), ept_count_ := count })
  let m := updV m (fun v => { v with procbased_ctls2_enable_ept := true })
  ept_index m 0

/-- `vcpu_t::ept_disable` (vcpu.cpp): no-op when EPT was never enabled;
otherwise release the instance array and null the pointer.  The
hardware EPT control bit is deliberately left alone (the source has this
code commented out: VMX has already been exited at that point). -/
def ept_disable (m : machine_t) : machine_t :=
  if m.faulted then m
  else
    match m.v.ept_ with
    | none => m
    | some _ => { m with v := { m.v with ept_ := none } }

/-- `vcpu_t::suppress_rip_adjust` (vcpu.cpp). -/
def suppress_rip_adjust (m : machine_t) : machine_t :=
  updV m (fun v => { v with suppress_rip_adjust_ := true })

/-- One public-interface action of the external VM-exit handler on the
vcpu: mutate the exit context, suppress the automatic RIP adjustment,
request termination, inject an interrupt, or manage EPT instances. -/
inductive hact where
  | set_exit_rip (n : Nat)
  | set_exit_rsp (n : Nat)
  | set_exit_rflags (n : Nat)
  | do_suppress_rip_adjust
  | do_terminate
  | do_inject (intr : interrupt_t) (first : Bool)
  | do_ept_enable (count : Nat) (alloc : Nat → ept_t)
  | do_ept_disable
  | do_ept_index (index : Nat)

/-- Effect of one handler action. -/
def run_hact (m : machine_t) (a : hact) : machine_t :=
  match a with
  | .set_exit_rip n => updV m (fun v => { v with exit_context_rip := n })
  | .set_exit_rsp n => updV m (fun v => { v with exit_context_rsp := n })
  | .set_exit_rflags n => updV m (fun v => { v with exit_context_rflags := n })
  | .do_suppress_rip_adjust => suppress_rip_adjust m
  | .do_terminate => terminate m
  | .do_inject intr first => updV m (fun v => (interrupt_inject v intr first).2)
  | .do_ept_enable count alloc => ept_enable m count alloc
  | .do_ept_disable => ept_disable m
  | .do_ept_index index => ept_index m index

/-- A handler callback, as the sequence of its actions on the vcpu. -/
def run_handler (m : machine_t) (acts : List hact) : machine_t :=
  acts.foldl run_hact m

/-- Success oracle for the fallible VMX instructions. -/
structure vmx_oracle where
  vmxon_ok : Bool
  vmclear_ok : Bool
  vmptrld_ok : Bool
  vmlaunch_ok : Bool
deriving DecidableEq

/-- Addresses that vcpu.cpp takes of its own code and stack. -/
structure addr_env_t where
  stack_top : Nat
  entry_host_addr : Nat
  entry_guest_addr : Nat
  vmresume_addr : Nat
deriving DecidableEq

/-- `vcpu_t::load_vmxon` (vcpu.cpp): write the VMX-adjusted CR0/CR4 (in
particular CR4.VMXE becomes 1), then execute VMXON.  On success the state
becomes `initializing` and the translation caches are flushed; on failure
the state is set to `terminated` and `error()` runs.  VMXON succeeds when
the oracle says so and the processor is not already in VMX-root mode. -/
def load_vmxon (m : machine_t) (o : vmx_oracle) : machine_t :=
  if m.faulted then m
  else
    let m := { m with
      hw := { m.hw with cr4_vmx_enable := true }
      trace := m.trace ++ [.write_cr4, .vmxon] }
    if o.vmxon_ok && !m.hw.vmx_root then
      let m := { m with hw := { m.hw with vmx_root := true } }
      let m := assign_state m .initializing
      { m with trace := m.trace ++ [.invvpid_all_contexts, .invept_all_contexts] }
    else
      error (assign_state m .terminated)

/-- `vcpu_t::load_vmcs` (vcpu.cpp): assert the state is `initializing`;
VMCLEAR then VMPTRLD the VMCS, calling `error()` if either fails. -/
def load_vmcs (m : machine_t) (o : vmx_oracle) : machine_t :=
  let m := hvpp_assert m (decide (m.v.state_ = vcpu_state.initializing))
  if m.faulted then m
  else if o.vmclear_ok && o.vmptrld_ok then
    { m with trace := m.trace ++ [.vmclear, .vmptrld] }
  else if o.vmclear_ok then
    error { m with trace := m.trace ++ [.vmclear, .vmptrld] }
  else
    error { m with trace := m.trace ++ [.vmclear] }

/-- `vcpu_t::setup_host` (vcpu.cpp): mirror the current GDTR/IDTR/CR3
into the host VMCS fields and point the host RSP/RIP at the private stack
top and `entry_host_`.  (Segment-register and CR0/CR4 mirroring is not
carried in the model: nothing modelled reads it back.) -/
def setup_host (m : machine_t) (env : addr_env_t) : machine_t :=
  if m.faulted then m
  else { m with v := { m.v with
    host_gdtr := m.hw.gdtr
    host_idtr := m.hw.idtr
    host_cr3 := m.hw.cr3
    host_rsp := env.stack_top
    host_rip := env.entry_host_addr } }

/-- `~0ull`, the VMCS link pointer value when shadowing is disabled. -/
def vmcs_link_pointer_invalid : Nat := 2 ^ 64 - 1

/-- `vcpu_t::setup_guest` (vcpu.cpp): VPID 1, invalid link pointer,
default controls (the fresh secondary controls leave `enable_ept` clear),
and the guest RSP/RIP pointed at the private stack top and the
`entry_guest_` trampoline.  (The control bits not read back by any
modelled routine are not carried.) -/
def setup_guest (m : machine_t) (env : addr_env_t) : machine_t :=
  if m.faulted then m
  else { m with v := { m.v with
    vcpu_id := 1
    vmcs_link_pointer := vmcs_link_pointer_invalid
    procbased_ctls2_enable_ept := false
    guest_rsp := env.stack_top
    guest_rip := env.entry_guest_addr } }

/-- `vcpu_t::setup` (vcpu.cpp): enter VMX operation, load the VMCS, fill
the host and guest fields, run the handler's setup callback, then
VMLAUNCH.  Returns the machine together with `true` when VMLAUNCH
succeeded (control transferred to the guest: setup does not return); on
failure `error()` runs and setup returns normally.  VMLAUNCH succeeds
when the oracle says so and the processor is still in VMX-root mode. -/
def setup (m : machine_t) (o : vmx_oracle) (env : addr_env_t)
    (setup_acts : List hact) : machine_t × Bool :=
  let m := load_vmxon m o
  let m := load_vmcs m o
  let m := setup_host m env
  let m := setup_guest m env
  let m := run_handler m setup_acts
  let m := emit m .vmlaunch
  if !m.faulted && m.hw.vmx_root && o.vmlaunch_ok then
    (m, true)
  else
    (error m, false)

/-- Whether control came back to the caller of `launch` or left for the
guest through a successful VMLAUNCH. -/
inductive launch_return where
  | entered_guest
  | returned
deriving DecidableEq

/-- The switch in `vcpu_t::launch` (vcpu.cpp) on the raw value returned
by `guest_context_.capture()`: value `off` runs `setup()`; value
`launching` sets the state to `running` and returns; anything else is
`hvpp_assert(0)`. -/
def launch_dispatch (m : machine_t) (o : vmx_oracle) (env : addr_env_t)
    (setup_acts : List hact) (captured : Nat) : machine_t × launch_return :=
  if captured = vcpu_state.off.code then
    match setup m o env setup_acts with
    | (m, true) => (m, .entered_guest)
    | (m, false) => (m, .returned)
  else if captured = vcpu_state.launching.code then
    (assign_state m .running, .returned)
  else
    (hvpp_assert m false, .returned)

/-- `vcpu_t::entry_guest` (vcpu.cpp): the guest-entry trampoline marks
the sentinel by storing `vcpu_state::launching` into the captured
context's RAX before restoring that context. -/
def entry_guest (m : machine_t) : machine_t :=
  updV m (fun v => { v with guest_context_rax := vcpu_state.launching.code })

/-- `vcpu_t::launch` (vcpu.cpp).  `guest_context_.capture()` returns 0
(= `vcpu_state::off`) when called by the original code, so the first
dispatch runs `setup()`.  When VMLAUNCH succeeds, control reaches the
guest trampoline `entry_guest_` (vcpu.asm), which calls `entry_guest()`
and then `guest_context_.restore()`: capture returns a second time with
the value left in RAX, and that dispatch is the one that returns to the
original caller. -/
def launch (m : machine_t) (o : vmx_oracle) (env : addr_env_t)
    (setup_acts : List hact) : machine_t :=
  match launch_dispatch m o env setup_acts vcpu_state.off.code with
  | (m1, .entered_guest) =>
      let m2 := entry_guest m1
      (launch_dispatch m2 o env setup_acts m2.v.guest_context_rax).1
  | (m1, .returned) => m1

/-- The prologue of `vcpu_t::entry_host` (vcpu.cpp): reset the one-shot
RIP-adjust flag, fxsave the extended register state, capture the
hardware-reported guest RSP/RIP/RFLAGS into the exit context and set up
the stack's machine frame. -/
def entry_host_prologue (m : machine_t) : machine_t :=
  let m := updV m (fun v => { v with suppress_rip_adjust_ := false })
  let m := emit m .fxsave
  let m := updV m (fun v => { v with
    exit_context_rsp := v.guest_rsp
    exit_context_rip := v.guest_rip
    exit_context_rflags := v.guest_rflags })
  updV m (fun v => { v with
    machine_frame_rip := v.exit_context_rip + v.exit_instruction_length
    machine_frame_rsp := v.exit_context_rsp })

/-- The epilogue of `vcpu_t::entry_host` after the handler callback.
If the handler drove the state to `terminated`, jump straight to the
fxrstor (`goto exit`).  Otherwise advance the captured RIP unless the
handler suppressed it, write the exit context back into the guest VMCS
fields, restore the saved exit-context RSP/RFLAGS and point the context
RIP at `vmx::vmresume`, then fxrstor. -/
def entry_host_epilogue (m : machine_t) (env : addr_env_t)
    (captured_rsp captured_rflags : Nat) : machine_t :=
  if m.v.state_ = vcpu_state.terminated then
    emit m .fxrestore
  else
    let m := if m.v.suppress_rip_adjust_ then m
      else updV m (fun v =>
        { v with exit_context_rip := v.exit_context_rip + v.exit_instruction_length })
    let m := emit (updV m (fun v => { v with guest_rsp := v.exit_context_rsp }))
      .write_guest_rsp
    let m := emit (updV m (fun v => { v with guest_rip := v.exit_context_rip }))
      .write_guest_rip
    let m := emit (updV m (fun v => { v with guest_rflags := v.exit_context_rflags }))
      .write_guest_rflags
    let m := updV m (fun v => { v with
      exit_context_rflags := captured_rflags
      exit_context_rsp := captured_rsp
      exit_context_rip := env.vmresume_addr })
    emit m .fxrestore

/-- `vcpu_t::entry_host` (vcpu.cpp): prologue, handler callback,
epilogue.  The saved RSP/RFLAGS restored by the epilogue are the exit
context's values from before the prologue overwrote them. -/
def entry_host (m : machine_t) (env : addr_env_t) (acts : List hact) : machine_t :=
  entry_host_epilogue (run_handler (entry_host_prologue m) acts) env
    m.v.exit_context_rsp m.v.exit_context_rflags

/-- `vcpu_t::~vcpu_t` (vcpu.cpp): set the state to `terminating`, then
`handler_.invoke_termination(*this)` — whose contract is to cause one
more VM exit whose handling the handler routes to `terminate()` — and
finally destroy the EPT instances. -/
def vcpu_destruct (m : machine_t) (env : addr_env_t) (dtor_acts : List hact) :
    machine_t :=
  let m := assign_state m .terminating
  let m := entry_host m env dtor_acts
  ept_disable m

/-- `vcpu_t::vcpu_t` (vcpu.cpp): state starts `off`, EPT uninitialized,
the pending-interrupt FIFO empty, the RIP-adjust flag clear and both
contexts cleared.  `exit_len` is the instruction length the VMCS reports
for the exits this machine will take. -/
def vcpu_ctor (exit_len : Nat) : vcpu_t :=
  { guest_context_rax := 0
    exit_context_rip := 0
    exit_context_rsp := 0
    exit_context_rflags := 0
    machine_frame_rip := 0
    machine_frame_rsp := 0
    guest_rip := 0
    guest_rsp := 0
    guest_rflags := 0
    guest_gdtr := 0
    guest_idtr := 0
    guest_cr3 := 0
    host_gdtr := 0
    host_idtr := 0
    host_cr3 := 0
    host_rsp := 0
    host_rip := 0
    vcpu_id := 0
    vmcs_link_pointer := 0
    procbased_ctls2_enable_ept := false
    ept_pointer := 0
    exit_instruction_length := exit_len
    state_ := .off
    ept_ := none
    ept_count_ := 0
    ept_index_ := 0
    pending_interrupt_ := fun _ => default
    pending_interrupt_first_ := 0
    pending_interrupt_count_ := 0
    suppress_rip_adjust_ := false }

/-- A machine with a freshly constructed vcpu on a processor whose
registers are `hw`. -/
def machine_construct (hw : hw_state_t) (exit_len : Nat) : machine_t :=
  { v := vcpu_ctor exit_len
    hw := hw
    faulted := false
    slog := []
    trace := [] }

/-- The life of one virtual CPU as the program drives it: construction,
one `launch()` (with the handler's setup callback), a sequence of VM
exits dispatched through `entry_host` (each with the handler's actions
for that exit), optionally an explicit `terminate()` (as
`hypervisor::stop` performs before destroying the array), and
destruction. -/
def lifecycle_run (hw : hw_state_t) (exit_len : Nat) (o : vmx_oracle)
    (env : addr_env_t) (setup_acts : List hact) (exits : List (List hact))
    (do_term : Bool) (dtor_acts : List hact) : machine_t :=
  let m := machine_construct hw exit_len
  let m := launch m o env setup_acts
  let m := exits.foldl (fun m acts => entry_host m env acts) m
  let m := if do_term then terminate m else m
  vcpu_destruct m env dtor_acts

/-- Error conditions returned by the modelled interfaces
(`std::errc` values used by the sources). -/
inductive errc where
  | ok
  | operation_not_permitted
  | not_enough_memory
  | not_supported
  | invalid_argument
deriving DecidableEq

/-- `page_size` (4 KiB). -/
def page_size : Nat := 4096

/-- `memory_type::write_back` (= 6). -/
def memory_type_write_back : Nat := 6

/-- The CPU capability bits and capability-MSR values that
`detail::check_cpu_features` (hypervisor.cpp) examines. -/
structure cpu_features_t where
  virtual_machine_extensions : Bool
  cr4_vmx_enable : Bool
  vmcs_size_in_bytes : Nat
  memory_type : Nat
  true_controls : Bool
  page_walk_length_4 : Bool
  memory_type_write_back : Bool
  invept : Bool
  invept_all_contexts : Bool
  execute_only_pages : Bool
  pde_2mb_pages : Bool
deriving DecidableEq

/-- `detail::check_cpu_features` (hypervisor.cpp): VMX support reported
by CPUID, CR4.VMXE not already set, VMCS region at most one page and
write-back with true controls, and the required EPT/VPID capabilities. -/
def check_cpu_features (f : cpu_features_t) : Bool :=
  if !f.virtual_machine_extensions then false
  else if f.cr4_vmx_enable then false
  else if f.vmcs_size_in_bytes > page_size
       || f.memory_type != memory_type_write_back
       || !f.true_controls then false
  else if !f.page_walk_length_4
       || !f.memory_type_write_back
       || !f.invept
       || !f.invept_all_contexts
       || !f.execute_only_pages
       || !f.pde_2mb_pages then false
  else true

/-- `hypervisor::global_t` (hypervisor.cpp): the vcpu array (none models
a null `vcpu_list`) and the started flag. -/
structure hv_global_t where
  vcpu_list : Option (List machine_t)
  started : Bool

/-- Orchestrator-level steps in execution order. -/
inductive hv_event where
  | construct_vcpus
  | broadcast_launch
  | set_started
  | broadcast_terminate
  | destroy_vcpus
deriving DecidableEq

/-- The initial orchestrator state (`global` is zero-initialized). -/
def hv_initial : hv_global_t :=
  { vcpu_list := none, started := false }

/-- `hypervisor::is_started` (hypervisor.cpp). -/
def is_started (g : hv_global_t) : Bool :=
  g.started

/-- `hypervisor::start` (hypervisor.cpp).  Error-return if already
started (the source pairs the assertion with this explicit guard);
allocate and construct one vcpu per processor (placement-new with the
handler); re-check the CPU features on the calling processor only;
then `ipi_call` a launch of each processor's own vcpu under an
allocator guard, and set the started flag only after that broadcast
returns.  All processors are modelled symmetric: same registers, same
oracle, as the source itself assumes. -/
def hypervisor_start (g : hv_global_t) (cpu_count : Nat) (alloc_ok : Bool)
    (f : cpu_features_t) (hw : hw_state_t) (exit_len : Nat) (o : vmx_oracle)
    (env : addr_env_t) (setup_acts : List hact) :
    errc × hv_global_t × List hv_event :=
  if g.started then
    (.operation_not_permitted, g, [])
  else if !alloc_ok then
    (.not_enough_memory, { g with vcpu_list := none }, [])
  else
    let vcpus := List.replicate cpu_count (machine_construct hw exit_len)
    let g1 := { g with vcpu_list := some vcpus }
    if !check_cpu_features f then
      (.not_supported, g1, [.construct_vcpus])
    else
      let g2 := { g1 with
        vcpu_list := some (vcpus.map (fun m => launch m o env setup_acts)) }
      (.ok, { g2 with started := true },
       [.construct_vcpus, .broadcast_launch, .set_started])

/-- `hypervisor::stop` (hypervisor.cpp): no-op when not started;
otherwise `ipi_call` a terminate of each processor's own vcpu, then
`delete[]` the array (running every `~vcpu_t`) and clear the flag. -/
def hypervisor_stop (g : hv_global_t) : hv_global_t × List hv_event :=
  if !g.started then (g, [])
  else
    ({ vcpu_list := none, started := false },
     [.broadcast_terminate, .destroy_vcpus])

/-- Steps of `device::create` (lib/win32/device.cpp) in execution
order. -/
inductive dev_event where
  | alloc_impl
  | convert_name
  | build_device_name
  | build_device_link
  | io_create_device
  | set_device_flags
  | io_create_symbolic_link
  | io_delete_device
  | free_impl
deriving DecidableEq

/-- The OS-facing device object; only the private implementation pointer
`impl_` is observable at this boundary. -/
structure device_t where
  impl_ : Option Nat
deriving DecidableEq

/-- `MAX_BUFFER_SIZE` (lib/win32/device.cpp). -/
def MAX_BUFFER_SIZE : Nat := 64

/-- `device::create` (lib/win32/device.cpp): reject names of
`MAX_BUFFER_SIZE` or more characters before doing anything else; then
allocate the implementation block, convert the name, build the device
and symbolic-link names, create the kernel device object, set its flags
and create the symbolic link, assigning `impl_` only on full success.
Failures of the pool allocation, `IoCreateDevice` or
`IoCreateSymbolicLink` take the cleanup path and leave `impl_` alone. -/
def device_create (d : device_t) (name_length : Nat)
    (alloc_ok io_create_ok symlink_ok : Bool) :
    errc × device_t × List dev_event :=
  if name_length ≥ MAX_BUFFER_SIZE then
    (.invalid_argument, d, [])
  else if !alloc_ok then
    (.not_enough_memory, d, [.alloc_impl])
  else if !io_create_ok then
    (.not_enough_memory, d,
     [.alloc_impl, .convert_name, .build_device_name, .build_device_link,
      .io_create_device, .free_impl])
  else if !symlink_ok then
    (.not_enough_memory, d,
     [.alloc_impl, .convert_name, .build_device_name, .build_device_link,
      .io_create_device, .set_device_flags, .io_create_symbolic_link,
      .io_delete_device, .free_impl])
  else
    (.ok, { d with impl_ := some 1 },
     [.alloc_impl, .convert_name, .build_device_name, .build_device_link,
      .io_create_device, .set_device_flags, .io_create_symbolic_link])

/-- The state-assignment discipline the code actually follows: every
recorded assignment moves strictly forward in the chain (by enumerator
rank, possibly skipping steps), except that the destructor's entry
assignment of `terminating` may follow a later state. -/
def slog_ok (m : machine_t) : Prop :=
  ∀ p ∈ m.slog, p.1.code < p.2.code ∨ p.2 = vcpu_state.terminating

/-- The machine shape maintained through `setup`: either the machine has
faulted, or it is mid-initialization inside VMX-root mode, or it has
been terminated with VMX-root mode left. -/
def launch_inv (m : machine_t) : Prop :=
  m.faulted = true ∨
  (m.v.state_ = vcpu_state.initializing ∧ m.hw.vmx_root = true) ∨
  (m.v.state_ = vcpu_state.terminated ∧ m.hw.vmx_root = false)

/-- Concrete processor registers used by the evaluation witnesses. -/
def hw_ex : hw_state_t :=
  { gdtr := 10, idtr := 11, cr3 := 12, cr4_vmx_enable := false, vmx_root := false }

/-- Concrete code/stack addresses used by the evaluation witnesses. -/
def env_ex : addr_env_t :=
  { stack_top := 4096, entry_host_addr := 7000, entry_guest_addr := 8000,
    vmresume_addr := 9000 }

/-- The all-success oracle used by the evaluation witnesses. -/
def oracle_ok : vmx_oracle :=
  { vmxon_ok := true, vmclear_ok := true, vmptrld_ok := true, vmlaunch_ok := true }

/-- A freshly constructed machine used by the evaluation witnesses. -/
def m_ex : machine_t :=
  machine_construct hw_ex 3

/-- A CPU feature set reporting no VMX support (all other capabilities
present), used by the evaluation witnesses. -/
def features_bad : cpu_features_t :=
  { virtual_machine_extensions := false
    cr4_vmx_enable := false
    vmcs_size_in_bytes := 1024
    memory_type := memory_type_write_back
    true_controls := true
    page_walk_length_4 := true
    memory_type_write_back := true
    invept := true
    invept_all_contexts := true
    execute_only_pages := true
    pde_2mb_pages := true }

/-- A CPU feature set with every required capability, used by the
evaluation witnesses. -/
def features_good : cpu_features_t :=
  { features_bad with virtual_machine_extensions := true }

/-- An orchestrator state that is already started, used by the
evaluation witnesses. -/
def g_started_ex : hv_global_t :=
  { vcpu_list := some [], started := true }

/-- Concrete interrupt descriptors used by the queue scenario. -/
def intr_A : interrupt_t :=
  { vector := 1, type := 0, valid := true, error_code_valid := false,
    error_code := 0, rip_adjust := -1 }

/-- See `intr_A`. -/
def intr_B : interrupt_t :=
  { vector := 2, type := 0, valid := true, error_code_valid := false,
    error_code := 0, rip_adjust := -1 }

/-- See `intr_A`. -/
def intr_C : interrupt_t :=
  { vector := 3, type := 4, valid := true, error_code_valid := true,
    error_code := 9, rip_adjust := -1 }

/-- A vcpu whose pending-interrupt queue is full, used by the evaluation
witnesses. -/
def v_full_ex : vcpu_t :=
  { vcpu_ctor 0 with pending_interrupt_count_ := 16 }

/-! ## Basic lemmas about the machine primitives -/

theorem emit_faulted (m : machine_t) (e : hw_event) :
    (emit m e).faulted = m.faulted := by
  unfold emit; split <;> rfl

theorem updV_faulted (m : machine_t) (f : vcpu_t → vcpu_t) :
    (updV m f).faulted = m.faulted := by
  unfold updV; split <;> rfl

theorem assign_state_faulted (m : machine_t) (s : vcpu_state) :
    (assign_state m s).faulted = m.faulted := by
  unfold assign_state; split <;> rfl

theorem emit_of_faulted (m : machine_t) (e : hw_event) (h : m.faulted = true) :
    emit m e = m := by
  unfold emit; simp [h]

theorem updV_of_faulted (m : machine_t) (f : vcpu_t → vcpu_t)
    (h : m.faulted = true) : updV m f = m := by
  unfold updV; simp [h]

theorem assign_state_of_faulted (m : machine_t) (s : vcpu_state)
    (h : m.faulted = true) : assign_state m s = m := by
  unfold assign_state; simp [h]

theorem hvpp_assert_of_faulted (m : machine_t) (b : Bool)
    (h : m.faulted = true) : hvpp_assert m b = m := by
  unfold hvpp_assert; simp [h]

theorem terminate_of_faulted (m : machine_t) (h : m.faulted = true) :
    terminate m = m := by
  unfold terminate; simp [h]

/-! ## C9 — idempotence of `ept_disable` -/

/-- C9: `ept_disable()` is idempotent: when EPT was never enabled it is a
no-op, calling it twice in a row is safe with the second call changing
nothing (after the first call the instance array pointer is null, so a
repeated call takes the early-return path), and a first call on a live
machine leaves the pointer null. -/
theorem ept_disable_idempotent (m : machine_t) :
    (m.v.ept_ = none → ept_disable m = m) ∧
    ept_disable (ept_disable m) = ept_disable m ∧
    (m.faulted = false → (ept_disable m).v.ept_ = none) := by
  by_cases hf : m.faulted
  · refine ⟨fun _ => by simp [ept_disable, hf], by simp [ept_disable, hf], ?_⟩
    intro h; rw [h] at hf; exact absurd hf (by simp)
  · cases he : m.v.ept_ with
    | none =>
        refine ⟨fun _ => by simp [ept_disable, hf, he], ?_, ?_⟩
        · simp [ept_disable, hf, he]
        · intro _; simp [ept_disable, hf, he]
    | some l =>
        refine ⟨(fun h => by simp [he] at h), ?_, ?_⟩
        · simp [ept_disable, hf, he]
        · intro _; simp [ept_disable, hf, he]

/-- C9 witness: on a fresh machine (EPT never enabled) the first call is
already a no-op and the pointer stays null. -/
theorem ept_disable_idempotent_witness :
    m_ex.v.ept_ = none ∧ ept_disable m_ex = m_ex :=
  ⟨rfl, (ept_disable_idempotent m_ex).1 rfl⟩

/-! ## C8 — EPT index selection -/

/-- C8: selecting an out-of-range translation-context index is rejected
by the assertion and changes neither the active index nor the active
EPT pointer (nor the count); selecting a valid index loads that
instance's hardware-loadable pointer into the VMCS field and makes it
the active index, so `ept_index_ < ept_count_` is preserved by every
call. -/
theorem ept_index_select (m : machine_t) (i : Nat) (hf : m.faulted = false) :
    (m.v.ept_count_ ≤ i →
      (ept_index m i).faulted = true ∧
      (ept_index m i).v.ept_index_ = m.v.ept_index_ ∧
      (ept_index m i).v.ept_pointer = m.v.ept_pointer ∧
      (ept_index m i).v.ept_count_ = m.v.ept_count_) ∧
    (∀ l, i < m.v.ept_count_ → m.v.ept_ = some l →
      (ept_index m i).faulted = false ∧
      (ept_index m i).v.ept_pointer = (l.getD i default).ept_pointer ∧
      (ept_index m i).v.ept_index_ = i ∧
      (ept_index m i).v.ept_count_ = m.v.ept_count_ ∧
      (ept_index m i).trace = m.trace ++ [.write_ept_pointer]) ∧
    (m.v.ept_index_ < m.v.ept_count_ →
      (ept_index m i).v.ept_index_ < (ept_index m i).v.ept_count_) := by
  refine ⟨?_, ?_, ?_⟩
  · intro hi
    have hlt : ¬ i < m.v.ept_count_ := Nat.not_lt.mpr hi
    simp [ept_index, hvpp_assert, emit, updV, hf, hlt]
  · intro l hi he
    simp [ept_index, hvpp_assert, emit, updV, hf, hi, he]
  · intro hinv
    by_cases hi : i < m.v.ept_count_
    · simp [ept_index, hvpp_assert, emit, updV, hf, hi]
    · simp [ept_index, hvpp_assert, emit, updV, hf, hi, hinv]

/-- C8 witness: on a machine with one EPT instance, selecting index 1 is
rejected and leaves the active index and pointer alone. -/
theorem ept_index_select_witness :
    (ept_enable m_ex 1 (fun _ => { ept_pointer := 77 })).faulted = false ∧
    (ept_enable m_ex 1 (fun _ => { ept_pointer := 77 })).v.ept_count_ ≤ 1 ∧
    (ept_index (ept_enable m_ex 1 (fun _ => { ept_pointer := 77 })) 1).faulted = true ∧
    (ept_index (ept_enable m_ex 1 (fun _ => { ept_pointer := 77 })) 1).v.ept_index_ =
      (ept_enable m_ex 1 (fun _ => { ept_pointer := 77 })).v.ept_index_ := by
  refine ⟨by decide, by decide, ?_, ?_⟩
  · exact ((ept_index_select (ept_enable m_ex 1 (fun _ => { ept_pointer := 77 })) 1
      (by decide)).1 (by decide)).1
  · exact (((ept_index_select (ept_enable m_ex 1 (fun _ => { ept_pointer := 77 })) 1
      (by decide)).1 (by decide)).2).1

/-! ## C10 — device name-length check -/

/-- C10: for a device name of `MAX_BUFFER_SIZE` (64) characters or more,
`device::create` returns an invalid-argument error immediately: no
implementation block is allocated, no name conversion and no kernel
device-object creation happens, and `impl_` is left unchanged. -/
theorem device_create_name_too_long (d : device_t) (name_length : Nat)
    (alloc_ok io_create_ok symlink_ok : Bool)
    (h : MAX_BUFFER_SIZE ≤ name_length) :
    device_create d name_length alloc_ok io_create_ok symlink_ok =
      (.invalid_argument, d, []) := by
  simp [device_create, h]

/-- C10 witness: a 64-character name is rejected with no side effects. -/
theorem device_create_name_too_long_witness :
    MAX_BUFFER_SIZE ≤ 64 ∧
    device_create { impl_ := none } 64 true true true =
      (.invalid_argument, { impl_ := none }, []) :=
  ⟨by decide, device_create_name_too_long { impl_ := none } 64 true true true
    (by decide)⟩

/-! ## C5 — `terminate` -/

/-- C5: with the state neither `off` nor `terminated`, `terminate()`
advances the saved exit-context RIP by the reported instruction length,
restores the true GDTR/IDTR and the guest CR3, flushes translation state
with INVVPID and INVEPT (all-contexts), leaves VMX-root mode, clears
CR4.VMXE and finally sets the state to `terminated`; called from `off`
or `terminated` it is an assertion-level fault that changes nothing. -/
theorem terminate_effects (m : machine_t) (hf : m.faulted = false) :
    (m.v.state_ ≠ vcpu_state.off → m.v.state_ ≠ vcpu_state.terminated →
      (terminate m).v.exit_context_rip =
        m.v.exit_context_rip + m.v.exit_instruction_length ∧
      (terminate m).hw.gdtr = m.v.guest_gdtr ∧
      (terminate m).hw.idtr = m.v.guest_idtr ∧
      (terminate m).hw.cr3 = m.v.guest_cr3 ∧
      (terminate m).hw.vmx_root = false ∧
      (terminate m).hw.cr4_vmx_enable = false ∧
      (terminate m).v.state_ = vcpu_state.terminated ∧
      (terminate m).faulted = false ∧
      (terminate m).trace = m.trace ++ [.write_gdtr, .write_idtr, .write_cr3,
        .invvpid_all_contexts, .invept_all_contexts, .vmxoff, .write_cr4]) ∧
    ((m.v.state_ = vcpu_state.off ∨ m.v.state_ = vcpu_state.terminated) →
      (terminate m).faulted = true ∧
      (terminate m).v = m.v ∧ (terminate m).hw = m.hw ∧
      (terminate m).trace = m.trace) := by
  constructor
  · intro h1 h2
    simp [terminate, hf, h1, h2]
  · intro h
    simp [terminate, hf, h]

/-- C5 witness: terminating a vcpu in the `running` state sets
`terminated` and restores the guest CR3 into the hardware register. -/
theorem terminate_effects_witness :
    ((assign_state m_ex .running).faulted = false ∧
     (assign_state m_ex .running).v.state_ ≠ vcpu_state.off ∧
     (assign_state m_ex .running).v.state_ ≠ vcpu_state.terminated) ∧
    (terminate (assign_state m_ex .running)).v.state_ = vcpu_state.terminated ∧
    (terminate (assign_state m_ex .running)).hw.cr3 =
      (assign_state m_ex .running).v.guest_cr3 := by
  refine ⟨⟨by decide, by decide, by decide⟩, ?_, ?_⟩
  · exact ((((((terminate_effects (assign_state m_ex .running) (by decide)).1
      (by decide) (by decide)).2).2).2).2).2.2.1
  · exact ((((terminate_effects (assign_state m_ex .running) (by decide)).1
      (by decide) (by decide)).2).2).2.1

/-! ## C6 — capability check failure aborts start -/

/-- C6: when the hardware capability check fails — and it fails whenever
any of the checked capabilities is missing: no VMX support, CR4.VMXE
already set, a VMCS region larger than a page or not write-back, missing
true controls, or any missing EPT/VPID capability — `start()` returns a
not-supported error, the launch broadcast never happens (so no processor
enters virtualized mode), `is_started()` stays false and every
constructed vcpu is still `off` with an empty hardware trace. -/
theorem start_not_supported (g : hv_global_t) (cpu_count : Nat)
    (f : cpu_features_t) (hw : hw_state_t) (exit_len : Nat) (o : vmx_oracle)
    (env : addr_env_t) (setup_acts : List hact)
    (hg : g.started = false) (hc : check_cpu_features f = false) :
    (hypervisor_start g cpu_count true f hw exit_len o env setup_acts).1 =
      errc.not_supported ∧
    is_started
      (hypervisor_start g cpu_count true f hw exit_len o env setup_acts).2.1 =
      false ∧
    (hypervisor_start g cpu_count true f hw exit_len o env setup_acts).2.2 =
      [hv_event.construct_vcpus] ∧
    (∀ mv ∈ ((hypervisor_start g cpu_count true f hw exit_len o env
        setup_acts).2.1.vcpu_list.getD []),
      mv.v.state_ = vcpu_state.off ∧ mv.trace = [] ∧ mv.hw.vmx_root = hw.vmx_root) ∧
    (∀ fx : cpu_features_t,
      (fx.virtual_machine_extensions = false ∨ fx.cr4_vmx_enable = true ∨
       page_size < fx.vmcs_size_in_bytes ∨
       fx.memory_type ≠ memory_type_write_back ∨ fx.true_controls = false ∨
       fx.page_walk_length_4 = false ∨ fx.memory_type_write_back = false ∨
       fx.invept = false ∨ fx.invept_all_contexts = false ∨
       fx.execute_only_pages = false ∨ fx.pde_2mb_pages = false) →
      check_cpu_features fx = false) := by
  have hrun : hypervisor_start g cpu_count true f hw exit_len o env setup_acts =
      (errc.not_supported,
       { g with vcpu_list := some (List.replicate cpu_count (machine_construct hw exit_len)) },
       [hv_event.construct_vcpus]) := by
    simp [hypervisor_start, hg, hc]
  refine ⟨by rw [hrun], by rw [hrun]; simp [is_started, hg], by rw [hrun], ?_, ?_⟩
  · intro mv hmv
    rw [hrun] at hmv
    simp only [Option.getD_some] at hmv
    have := List.eq_of_mem_replicate hmv
    subst this
    exact ⟨rfl, rfl, rfl⟩
  · intro fx h
    rcases h with h | h | h | h | h | h | h | h | h | h | h <;>
      simp [check_cpu_features, h]

/-- C6 witness: a processor reporting no VMX support makes a 2-processor
`start()` fail with not-supported and `is_started()` stays false. -/
theorem start_not_supported_witness :
    (hv_initial.started = false ∧ check_cpu_features features_bad = false) ∧
    (hypervisor_start hv_initial 2 true features_bad hw_ex 3 oracle_ok env_ex
      []).1 = errc.not_supported ∧
    is_started (hypervisor_start hv_initial 2 true features_bad hw_ex 3
      oracle_ok env_ex []).2.1 = false :=
  ⟨⟨rfl, by decide⟩,
   (start_not_supported hv_initial 2 features_bad hw_ex 3 oracle_ok env_ex []
     rfl (by decide)).1,
   ((start_not_supported hv_initial 2 features_bad hw_ex 3 oracle_ok env_ex []
     rfl (by decide)).2).1⟩

/-! ## C7 — started-flag discipline -/

/-- C7: `is_started()` is false initially and after every failing
`start()`; a successful `start()` reports `ok` exactly when the flag
became true, and its step sequence sets the flag only after the launch
broadcast; `start()` on a started orchestrator returns the
already-running error and changes nothing; `stop()` on a stopped
orchestrator is a no-op; `stop()` on a started one clears the flag after
the terminate broadcast. -/
theorem started_flag_discipline (g : hv_global_t) (cpu_count : Nat)
    (alloc_ok : Bool) (f : cpu_features_t) (hw : hw_state_t) (exit_len : Nat)
    (o : vmx_oracle) (env : addr_env_t) (setup_acts : List hact) :
    (g.started = true →
      hypervisor_start g cpu_count alloc_ok f hw exit_len o env setup_acts =
        (errc.operation_not_permitted, g, [])) ∧
    (g.started = false → hypervisor_stop g = (g, [])) ∧
    is_started hv_initial = false ∧
    (g.started = false →
      ((hypervisor_start g cpu_count alloc_ok f hw exit_len o env
          setup_acts).1 = errc.ok ↔
        is_started (hypervisor_start g cpu_count alloc_ok f hw exit_len o env
          setup_acts).2.1 = true)) ∧
    ((hypervisor_start g cpu_count alloc_ok f hw exit_len o env setup_acts).1 =
        errc.ok →
      (hypervisor_start g cpu_count alloc_ok f hw exit_len o env setup_acts).2.2 =
        [hv_event.construct_vcpus, hv_event.broadcast_launch,
         hv_event.set_started]) ∧
    (g.started = true →
      is_started (hypervisor_stop g).1 = false ∧
      (hypervisor_stop g).2 =
        [hv_event.broadcast_terminate, hv_event.destroy_vcpus]) := by
  refine ⟨?_, ?_, rfl, ?_, ?_, ?_⟩
  · intro h; simp [hypervisor_start, h]
  · intro h; simp [hypervisor_stop, h]
  · intro h
    by_cases ha : alloc_ok
    · by_cases hc : check_cpu_features f
      · simp [hypervisor_start, h, ha, hc, is_started]
      · simp only [Bool.not_eq_true] at hc
        simp [hypervisor_start, h, ha, hc, is_started]
    · simp only [Bool.not_eq_true] at ha
      simp [hypervisor_start, h, ha, is_started]
  · intro h
    by_cases hg : g.started
    · simp [hypervisor_start, hg] at h
    · by_cases ha : alloc_ok
      · by_cases hc : check_cpu_features f
        · simp [hypervisor_start, hg, ha, hc]
        · simp only [Bool.not_eq_true] at hc
          simp [hypervisor_start, hg, ha, hc] at h
      · simp only [Bool.not_eq_true] at ha
        simp [hypervisor_start, hg, ha] at h
  · intro h
    simp [hypervisor_stop, h, is_started]

/-- C7 witness: on a started orchestrator, `start()` returns the
already-running error without touching the state, and `stop()` clears
the flag. -/
theorem started_flag_discipline_witness :
    g_started_ex.started = true ∧
    hypervisor_start g_started_ex 2 true features_good hw_ex 3 oracle_ok env_ex
      [] = (errc.operation_not_permitted, g_started_ex, []) ∧
    is_started (hypervisor_stop g_started_ex).1 = false :=
  ⟨rfl,
   (started_flag_discipline g_started_ex 2 true features_good hw_ex 3 oracle_ok
     env_ex []).1 rfl,
   ((started_flag_discipline g_started_ex 2 true features_good hw_ex 3 oracle_ok
     env_ex []).2.2.2.2.2 rfl).1⟩

/-! ## C2 — the three return paths of `launch` -/

theorem terminate_state_or_fault (m : machine_t) :
    (terminate m).v.state_ = vcpu_state.terminated ∨ (terminate m).faulted = true := by
  unfold terminate
  by_cases hf : m.faulted
  · simp [hf]
  · by_cases hs : m.v.state_ = vcpu_state.off ∨ m.v.state_ = vcpu_state.terminated
    · simp [hf, hs]
    · simp [hf, hs]

theorem setup_eq (m : machine_t) (o : vmx_oracle) (env : addr_env_t)
    (acts : List hact) :
    setup m o env acts =
      (if (!(emit (run_handler (setup_guest (setup_host (load_vmcs (load_vmxon m o) o) env) env) acts) .vmlaunch).faulted
            && (emit (run_handler (setup_guest (setup_host (load_vmcs (load_vmxon m o) o) env) env) acts) .vmlaunch).hw.vmx_root
            && o.vmlaunch_ok) = true
       then (emit (run_handler (setup_guest (setup_host (load_vmcs (load_vmxon m o) o) env) env) acts) .vmlaunch, true)
       else (error (emit (run_handler (setup_guest (setup_host (load_vmcs (load_vmxon m o) o) env) env) acts) .vmlaunch), false)) :=
  rfl

/-- When `setup` returns normally (VMLAUNCH did not transfer control),
the machine is terminated or has faulted — it is never left `running`. -/
theorem setup_returned_not_running (m : machine_t) (o : vmx_oracle)
    (env : addr_env_t) (acts : List hact)
    (h : (setup m o env acts).2 = false) :
    (setup m o env acts).1.v.state_ = vcpu_state.terminated ∨
    (setup m o env acts).1.faulted = true := by
  by_cases hc : (!(emit (run_handler (setup_guest (setup_host (load_vmcs (load_vmxon m o) o) env) env) acts) .vmlaunch).faulted
      && (emit (run_handler (setup_guest (setup_host (load_vmcs (load_vmxon m o) o) env) env) acts) .vmlaunch).hw.vmx_root
      && o.vmlaunch_ok) = true
  · rw [setup_eq, if_pos hc] at h
    cases h
  · rw [setup_eq, if_neg hc]
    exact terminate_state_or_fault _

/-- C2: `launch()` dispatches on the captured context value with exactly
three paths.  A captured `off` runs `setup()`, which hands control to
the guest (and so does not return) exactly when the hardware entry
succeeded; a captured `launching` — the sentinel the guest-entry
trampoline stores — sets the state to `running` and returns; any other
captured value is a fatal assertion fault.  The `launching` path is the
only one that can return to the caller unfaulted with the state
`running`; and on an all-success oracle a full `launch()` of a fresh
vcpu returns exactly once, with the state `running`. -/
theorem launch_three_paths (m : machine_t) (o : vmx_oracle) (env : addr_env_t)
    (acts : List hact) (hf : m.faulted = false) :
    ((launch_dispatch m o env acts vcpu_state.off.code).1 = (setup m o env acts).1 ∧
      ((launch_dispatch m o env acts vcpu_state.off.code).2 = launch_return.entered_guest ↔
        (setup m o env acts).2 = true)) ∧
    (launch_dispatch m o env acts vcpu_state.launching.code =
        (assign_state m vcpu_state.running, launch_return.returned) ∧
      (assign_state m vcpu_state.running).v.state_ = vcpu_state.running) ∧
    (∀ c, c ≠ vcpu_state.off.code → c ≠ vcpu_state.launching.code →
      launch_dispatch m o env acts c =
        ({ m with faulted := true }, launch_return.returned)) ∧
    (entry_guest m).v.guest_context_rax = vcpu_state.launching.code ∧
    (∀ c, (launch_dispatch m o env acts c).2 = launch_return.returned →
      (launch_dispatch m o env acts c).1.faulted = false →
      (launch_dispatch m o env acts c).1.v.state_ = vcpu_state.running →
      c = vcpu_state.launching.code) ∧
    (∀ hw len, o.vmxon_ok = true → o.vmclear_ok = true → o.vmptrld_ok = true →
      o.vmlaunch_ok = true → hw.vmx_root = false →
      (launch (machine_construct hw len) o env []).v.state_ = vcpu_state.running ∧
      (launch (machine_construct hw len) o env []).faulted = false) := by
  refine ⟨?_, ?_, ?_, ?_, ?_, ?_⟩
  · rcases hs : setup m o env acts with ⟨ms, b⟩
    cases b <;> simp [launch_dispatch, vcpu_state.code, hs]
  · constructor
    · simp [launch_dispatch, vcpu_state.code]
    · simp [assign_state, hf]
  · intro c h1 h2
    simp only [vcpu_state.code] at h1 h2
    simp [launch_dispatch, vcpu_state.code, h1, h2, hvpp_assert, hf]
  · simp [entry_guest, updV, hf]
  · intro c h1 h2 h3
    by_cases hc0 : c = vcpu_state.off.code
    · exfalso
      subst hc0
      rcases hs : setup m o env acts with ⟨ms, b⟩
      cases b
      · have hnr := setup_returned_not_running m o env acts (by rw [hs])
        rw [hs] at hnr
        simp only at hnr
        simp [launch_dispatch, vcpu_state.code, hs] at h2 h3
        rcases hnr with hnr | hnr
        · rw [h3] at hnr; cases hnr
        · rw [h2] at hnr; cases hnr
      · simp [launch_dispatch, vcpu_state.code, hs] at h1
    · by_cases hc2 : c = vcpu_state.launching.code
      · exact hc2
      · exfalso
        simp only [vcpu_state.code] at hc0 hc2
        simp [launch_dispatch, vcpu_state.code, hc0, hc2, hvpp_assert, hf] at h2
  · intro hw len h1 h2 h3 h4 hroot
    rcases o with ⟨o1, o2, o3, o4⟩
    simp only at h1 h2 h3 h4
    subst h1; subst h2; subst h3; subst h4
    constructor <;>
      simp [launch, launch_dispatch, setup, load_vmxon, load_vmcs, setup_host,
        setup_guest, run_handler, machine_construct, vcpu_ctor, emit, updV,
        assign_state, hvpp_assert, entry_guest, error, terminate, hroot,
        vcpu_state.code, List.foldl]

/-- C2 witness: dispatching the `launching` sentinel on a live machine
returns with the state set to `running`. -/
theorem launch_three_paths_witness :
    m_ex.faulted = false ∧
    launch_dispatch m_ex oracle_ok env_ex [] vcpu_state.launching.code =
      (assign_state m_ex vcpu_state.running, launch_return.returned) :=
  ⟨rfl, ((launch_three_paths m_ex oracle_ok env_ex [] rfl).2.1).1⟩

/-! ## C3 — the exit-dispatch routine -/

/-- C3: in `entry_host`, the one-shot suppress-advance flag is reset
before the handler runs, and the extended register state is saved on
entry; if the handler drove the state to `terminated`, the routine skips
every remaining hardware-touching step (no guest write-back, no resume
setup) and goes straight to restoring the extended register state;
otherwise the captured RIP is advanced by the reported instruction
length exactly when the handler did not set the suppress flag, the exit
context is written back to the guest fields, the context is rearmed for
`vmresume`, and the extended register state is restored; on every
non-faulting path the last hardware-touching step is the fxrstor. -/
theorem entry_host_dispatch (m0 : machine_t) (env : addr_env_t)
    (acts : List hact) (mh : machine_t) (hf : m0.faulted = false)
    (hmh : mh = run_handler (entry_host_prologue m0) acts) :
    (entry_host_prologue m0).v.suppress_rip_adjust_ = false ∧
    (entry_host_prologue m0).trace = m0.trace ++ [hw_event.fxsave] ∧
    (mh.faulted = false → mh.v.state_ = vcpu_state.terminated →
      entry_host m0 env acts =
        { mh with trace := mh.trace ++ [hw_event.fxrestore] }) ∧
    (mh.faulted = false → mh.v.state_ ≠ vcpu_state.terminated →
      (entry_host m0 env acts).v.guest_rip =
        (if mh.v.suppress_rip_adjust_ then mh.v.exit_context_rip
         else mh.v.exit_context_rip + mh.v.exit_instruction_length) ∧
      (entry_host m0 env acts).v.guest_rsp = mh.v.exit_context_rsp ∧
      (entry_host m0 env acts).v.guest_rflags = mh.v.exit_context_rflags ∧
      (entry_host m0 env acts).v.exit_context_rip = env.vmresume_addr ∧
      (entry_host m0 env acts).v.exit_context_rsp = m0.v.exit_context_rsp ∧
      (entry_host m0 env acts).v.exit_context_rflags = m0.v.exit_context_rflags ∧
      (entry_host m0 env acts).trace = mh.trace ++ [hw_event.write_guest_rsp,
        hw_event.write_guest_rip, hw_event.write_guest_rflags,
        hw_event.fxrestore]) ∧
    (mh.faulted = false →
      (entry_host m0 env acts).trace.getLast? = some hw_event.fxrestore) := by
  have hE : entry_host m0 env acts =
      entry_host_epilogue mh env m0.v.exit_context_rsp m0.v.exit_context_rflags := by
    rw [hmh]; rfl
  refine ⟨?_, ?_, ?_, ?_, ?_⟩
  · simp [entry_host_prologue, updV, emit, hf]
  · simp [entry_host_prologue, updV, emit, hf]
  · intro hfh hterm
    rw [hE]
    simp [entry_host_epilogue, hterm, emit, hfh]
  · intro hfh hterm
    rw [hE]
    by_cases hs : mh.v.suppress_rip_adjust_ <;>
      simp [entry_host_epilogue, hterm, emit, updV, hfh, hs]
  · intro hfh
    rw [hE]
    by_cases hterm : mh.v.state_ = vcpu_state.terminated
    · simp [entry_host_epilogue, hterm, emit, hfh]
    · by_cases hs : mh.v.suppress_rip_adjust_ <;>
        simp [entry_host_epilogue, hterm, emit, updV, hfh, hs,
          ← List.append_assoc, List.getLast?_concat]

/-- C3 witness: on a fresh machine the prologue hands the handler a
cleared suppress-advance flag, having saved the extended state. -/
theorem entry_host_dispatch_witness :
    m_ex.faulted = false ∧
    (entry_host_prologue m_ex).v.suppress_rip_adjust_ = false ∧
    (entry_host_prologue m_ex).trace = m_ex.trace ++ [hw_event.fxsave] :=
  ⟨rfl,
   (entry_host_dispatch m_ex env_ex [] (run_handler (entry_host_prologue m_ex) [])
     rfl rfl).1,
   ((entry_host_dispatch m_ex env_ex [] (run_handler (entry_host_prologue m_ex) [])
     rfl rfl).2).1⟩

/-! ## C4 — the pending-interrupt queue -/

theorem map_range_congr {α : Type} (f g : Nat → α) (n : Nat)
    (h : ∀ k, k < n → f k = g k) :
    (List.range n).map f = (List.range n).map g := by
  induction n with
  | zero => rfl
  | succ n ih =>
      rw [List.range_succ, List.map_append, List.map_append,
        ih (fun k hk => h k (Nat.lt_succ_of_lt hk))]
      simp [h n (Nat.lt_succ_self n)]

theorem pending_list_inject_front (v : vcpu_t) (intr : interrupt_t)
    (hwf : queue_wf v)
    (hne : v.pending_interrupt_count_ ≠ pending_interrupt_queue_size) :
    pending_list (interrupt_inject v intr true).2 = intr :: pending_list v := by
  have hle : v.pending_interrupt_count_ ≤ 16 := hwf
  have hc : v.pending_interrupt_count_ < 16 := by
    unfold pending_interrupt_queue_size at hne
    omega
  have h2 : (interrupt_inject v intr true).2 =
      { v with
        pending_interrupt_ := Function.update v.pending_interrupt_
          (qidx (v.pending_interrupt_first_ + 15)) intr
        pending_interrupt_first_ := (qidx (v.pending_interrupt_first_ + 15)).val
        pending_interrupt_count_ := v.pending_interrupt_count_ + 1 } := by
    unfold interrupt_inject
    rw [if_neg hne]
    rfl
  rw [h2]
  unfold pending_list
  simp only
  rw [List.range_succ_eq_map, List.map_cons, List.map_map]
  congr 1
  · have hq : qidx ((qidx (v.pending_interrupt_first_ + 15)).val + 0) =
        qidx (v.pending_interrupt_first_ + 15) := by
      apply Fin.ext; simp [qidx]
    rw [hq, Function.update_same]
  · apply map_range_congr
    intro k hk
    have hne2 : qidx ((qidx (v.pending_interrupt_first_ + 15)).val + (k + 1)) ≠
        qidx (v.pending_interrupt_first_ + 15) := by
      apply Fin.ne_of_val_ne
      simp only [qidx]
      omega
    show Function.update v.pending_interrupt_
        (qidx (v.pending_interrupt_first_ + 15)) intr
        (qidx ((qidx (v.pending_interrupt_first_ + 15)).val + (k + 1))) =
      v.pending_interrupt_ (qidx (v.pending_interrupt_first_ + k))
    rw [Function.update_noteq hne2]
    congr 1
    apply Fin.ext
    simp only [qidx]
    omega

theorem pending_list_inject_tail (v : vcpu_t) (intr : interrupt_t)
    (hwf : queue_wf v)
    (hne : v.pending_interrupt_count_ ≠ pending_interrupt_queue_size) :
    pending_list (interrupt_inject v intr false).2 = pending_list v ++ [intr] := by
  have hle : v.pending_interrupt_count_ ≤ 16 := hwf
  have hc : v.pending_interrupt_count_ < 16 := by
    unfold pending_interrupt_queue_size at hne
    omega
  have h2 : (interrupt_inject v intr false).2 =
      { v with
        pending_interrupt_ := Function.update v.pending_interrupt_
          (qidx (v.pending_interrupt_first_ + v.pending_interrupt_count_)) intr
        pending_interrupt_count_ := v.pending_interrupt_count_ + 1 } := by
    unfold interrupt_inject
    rw [if_neg hne]
    rfl
  rw [h2]
  unfold pending_list
  simp only
  rw [List.range_succ, List.map_append]
  congr 1
  · apply map_range_congr
    intro k hk
    have hne2 : qidx (v.pending_interrupt_first_ + k) ≠
        qidx (v.pending_interrupt_first_ + v.pending_interrupt_count_) := by
      apply Fin.ne_of_val_ne
      simp only [qidx]
      omega
    exact Function.update_noteq hne2 _ _
  · simp [Function.update_same]

theorem pending_list_dequeue (v : vcpu_t)
    (h : 0 < v.pending_interrupt_count_) :
    (pending_list v).head? = some (interrupt_dequeue v).1 ∧
    pending_list (interrupt_dequeue v).2 = (pending_list v).tail := by
  obtain ⟨c, hcv⟩ : ∃ c, v.pending_interrupt_count_ = c + 1 :=
    ⟨v.pending_interrupt_count_ - 1, by omega⟩
  constructor
  · unfold pending_list
    rw [hcv, List.range_succ_eq_map, List.map_cons]
    rfl
  · unfold pending_list interrupt_dequeue
    simp only [hcv]
    rw [List.range_succ_eq_map, List.map_cons, List.map_map, List.tail_cons,
      Nat.add_sub_cancel]
    apply map_range_congr
    intro k hk
    show v.pending_interrupt_ (qidx ((v.pending_interrupt_first_ + 1) % 16 + k)) =
      v.pending_interrupt_ (qidx (v.pending_interrupt_first_ + (k + 1)))
    congr 1
    apply Fin.ext
    simp only [qidx]
    omega

theorem interrupt_inject_wf (v : vcpu_t) (intr : interrupt_t) (first : Bool)
    (hwf : queue_wf v) : queue_wf (interrupt_inject v intr first).2 := by
  have hle : v.pending_interrupt_count_ ≤ 16 := hwf
  unfold interrupt_inject
  by_cases hfull : v.pending_interrupt_count_ = pending_interrupt_queue_size
  · rw [if_pos hfull]; exact hwf
  · have hc : v.pending_interrupt_count_ < 16 := by
      unfold pending_interrupt_queue_size at hfull
      omega
    rw [if_neg hfull]
    cases first
    · show v.pending_interrupt_count_ + 1 ≤ pending_interrupt_queue_size
      unfold pending_interrupt_queue_size
      omega
    · show v.pending_interrupt_count_ + 1 ≤ pending_interrupt_queue_size
      unfold pending_interrupt_queue_size
      omega

/-- C4: injecting into a full (16-entry) queue fails and changes nothing
(contents, head index and count included); a `front` enqueue places the
new descriptor ahead of all queued entries; a tail enqueue appends it,
so tail-enqueued descriptors dequeue in strict FIFO order (dequeue
removes and returns the head); the count never exceeds 16; and the
scenario enqueue A (tail), B (tail), C (front) on an empty queue leaves
the dequeue order C, A, B. -/
theorem interrupt_queue_order :
    (∀ v intr first,
      v.pending_interrupt_count_ = pending_interrupt_queue_size →
      interrupt_inject v intr first = (false, v)) ∧
    (∀ v intr, queue_wf v →
      v.pending_interrupt_count_ ≠ pending_interrupt_queue_size →
      (interrupt_inject v intr true).1 = true ∧
      pending_list (interrupt_inject v intr true).2 = intr :: pending_list v) ∧
    (∀ v intr, queue_wf v →
      v.pending_interrupt_count_ ≠ pending_interrupt_queue_size →
      (interrupt_inject v intr false).1 = true ∧
      pending_list (interrupt_inject v intr false).2 = pending_list v ++ [intr]) ∧
    (∀ v intr first, queue_wf v → queue_wf (interrupt_inject v intr first).2) ∧
    (∀ v, 0 < v.pending_interrupt_count_ →
      (pending_list v).head? = some (interrupt_dequeue v).1 ∧
      pending_list (interrupt_dequeue v).2 = (pending_list v).tail) ∧
    pending_list (interrupt_inject (interrupt_inject (interrupt_inject
      (vcpu_ctor 0) intr_A false).2 intr_B false).2 intr_C true).2 =
      [intr_C, intr_A, intr_B] := by
  refine ⟨?_, ?_, ?_, interrupt_inject_wf, pending_list_dequeue, by decide⟩
  · intro v intr first h
    unfold interrupt_inject
    rw [if_pos h]
  · intro v intr hwf hne
    refine ⟨?_, pending_list_inject_front v intr hwf hne⟩
    unfold interrupt_inject
    rw [if_neg hne]
    rfl
  · intro v intr hwf hne
    refine ⟨?_, pending_list_inject_tail v intr hwf hne⟩
    unfold interrupt_inject
    rw [if_neg hne]
    rfl

/-- C4 witness: injecting into a full queue fails and leaves the queue
untouched. -/
theorem interrupt_queue_order_witness :
    v_full_ex.pending_interrupt_count_ = pending_interrupt_queue_size ∧
    interrupt_inject v_full_ex intr_A true = (false, v_full_ex) :=
  ⟨by decide, interrupt_queue_order.1 v_full_ex intr_A true (by decide)⟩

/-! ## C1 — the state-assignment discipline

The following lemmas track, operation by operation, which pairs the
state-assignment log can acquire. -/

theorem emit_slog (m : machine_t) (e : hw_event) : (emit m e).slog = m.slog := by
  unfold emit; split <;> rfl

theorem updV_slog (m : machine_t) (f : vcpu_t → vcpu_t) :
    (updV m f).slog = m.slog := by
  unfold updV; split <;> rfl

theorem hvpp_assert_slog (m : machine_t) (b : Bool) :
    (hvpp_assert m b).slog = m.slog := by
  unfold hvpp_assert
  split
  · rfl
  · split <;> rfl

theorem vcpu_state_code_lt (s : vcpu_state) (h : s ≠ vcpu_state.terminated) :
    s.code < vcpu_state.terminated.code := by
  cases s <;> simp_all [vcpu_state.code]

theorem slog_ok_of_eq (m mx : machine_t) (h : mx.slog = m.slog)
    (hm : slog_ok m) : slog_ok mx := by
  unfold slog_ok at *
  rw [h]
  exact hm

theorem slog_ok_terminate (m : machine_t) (h : slog_ok m) :
    slog_ok (terminate m) := by
  by_cases hf : m.faulted
  · exact slog_ok_of_eq m _ (by rw [terminate_of_faulted m hf]) h
  · by_cases hs : m.v.state_ = vcpu_state.off ∨ m.v.state_ = vcpu_state.terminated
    · exact slog_ok_of_eq m _ (by simp [terminate, hf, hs]) h
    · have hres : (terminate m).slog =
          m.slog ++ [(m.v.state_, vcpu_state.terminated)] := by
        simp [terminate, hf, hs]
      intro p hp
      rw [hres] at hp
      rcases List.mem_append.1 hp with hp | hp
      · exact h p hp
      · rw [List.mem_singleton] at hp
        subst hp
        push_neg at hs
        exact Or.inl (vcpu_state_code_lt _ hs.2)

theorem interrupt_inject_state (v : vcpu_t) (intr : interrupt_t) (first : Bool) :
    (interrupt_inject v intr first).2.state_ = v.state_ := by
  unfold interrupt_inject
  split
  · rfl
  · split <;> rfl

theorem updV_core (m : machine_t) (f : vcpu_t → vcpu_t)
    (hstate : ∀ v, (f v).state_ = v.state_) :
    (updV m f).v.state_ = m.v.state_ ∧ (updV m f).hw = m.hw ∧
    (updV m f).slog = m.slog ∧ (updV m f).faulted = m.faulted := by
  unfold updV
  split <;> simp [hstate]

theorem ept_index_core (m : machine_t) (i : Nat) :
    (ept_index m i).v.state_ = m.v.state_ ∧ (ept_index m i).hw = m.hw ∧
    (ept_index m i).slog = m.slog ∧
    ((ept_index m i).faulted = m.faulted ∨ (ept_index m i).faulted = true) := by
  by_cases hf : m.faulted
  · simp [ept_index, hvpp_assert, emit, updV, hf]
  · by_cases hi : i < m.v.ept_count_
    · simp [ept_index, hvpp_assert, emit, updV, hf, hi]
    · simp [ept_index, hvpp_assert, emit, updV, hf, hi]

theorem ept_enable_core (m : machine_t) (c : Nat) (alloc : Nat → ept_t) :
    (ept_enable m c alloc).v.state_ = m.v.state_ ∧
    (ept_enable m c alloc).hw = m.hw ∧
    (ept_enable m c alloc).slog = m.slog ∧
    ((ept_enable m c alloc).faulted = m.faulted ∨
      (ept_enable m c alloc).faulted = true) := by
  by_cases hf : m.faulted
  · simp [ept_enable, ept_index, hvpp_assert, emit, updV, hf]
  · by_cases hb : (m.v.ept_.isNone && decide (0 < c)) = true
    · rw [Bool.and_eq_true] at hb
      by_cases h0 : 0 < c
      · simp [ept_enable, ept_index, hvpp_assert, emit, updV, hf, hb.1, hb.2, h0]
      · rw [decide_eq_true_iff] at hb
        exact absurd hb.2 h0
    · simp [ept_enable, ept_index, hvpp_assert, emit, updV, hf, hb]

theorem ept_disable_core (m : machine_t) :
    (ept_disable m).v.state_ = m.v.state_ ∧ (ept_disable m).hw = m.hw ∧
    (ept_disable m).slog = m.slog ∧ (ept_disable m).faulted = m.faulted := by
  unfold ept_disable
  by_cases hf : m.faulted
  · simp [hf]
  · cases he : m.v.ept_ <;> simp [hf, he]

theorem run_hact_cases (m : machine_t) (a : hact) :
    ((run_hact m a).v.state_ = m.v.state_ ∧ (run_hact m a).hw = m.hw ∧
     (run_hact m a).slog = m.slog ∧
     ((run_hact m a).faulted = m.faulted ∨ (run_hact m a).faulted = true)) ∨
    run_hact m a = terminate m := by
  cases a with
  | do_terminate => exact Or.inr rfl
  | set_exit_rip n =>
      have h := updV_core m (fun v => { v with exit_context_rip := n })
        (fun v => rfl)
      exact Or.inl ⟨h.1, h.2.1, h.2.2.1, Or.inl h.2.2.2⟩
  | set_exit_rsp n =>
      have h := updV_core m (fun v => { v with exit_context_rsp := n })
        (fun v => rfl)
      exact Or.inl ⟨h.1, h.2.1, h.2.2.1, Or.inl h.2.2.2⟩
  | set_exit_rflags n =>
      have h := updV_core m (fun v => { v with exit_context_rflags := n })
        (fun v => rfl)
      exact Or.inl ⟨h.1, h.2.1, h.2.2.1, Or.inl h.2.2.2⟩
  | do_suppress_rip_adjust =>
      have h := updV_core m (fun v => { v with suppress_rip_adjust_ := true })
        (fun v => rfl)
      exact Or.inl ⟨h.1, h.2.1, h.2.2.1, Or.inl h.2.2.2⟩
  | do_inject intr first =>
      have h := updV_core m (fun v => (interrupt_inject v intr first).2)
        (fun v => interrupt_inject_state v intr first)
      exact Or.inl ⟨h.1, h.2.1, h.2.2.1, Or.inl h.2.2.2⟩
  | do_ept_enable c alloc => exact Or.inl (ept_enable_core m c alloc)
  | do_ept_disable =>
      have h := ept_disable_core m
      exact Or.inl ⟨h.1, h.2.1, h.2.2.1, Or.inl h.2.2.2⟩
  | do_ept_index i => exact Or.inl (ept_index_core m i)

theorem slog_ok_run_hact (m : machine_t) (a : hact) (h : slog_ok m) :
    slog_ok (run_hact m a) := by
  rcases run_hact_cases m a with ⟨_, _, h3, _⟩ | heq
  · exact slog_ok_of_eq m _ h3 h
  · rw [heq]
    exact slog_ok_terminate m h

theorem slog_ok_run_handler (acts : List hact) :
    ∀ m, slog_ok m → slog_ok (run_handler m acts) := by
  induction acts with
  | nil => exact fun m h => h
  | cons a as ih =>
      intro m h
      exact ih (run_hact m a) (slog_ok_run_hact m a h)

theorem entry_host_prologue_slog (m : machine_t) :
    (entry_host_prologue m).slog = m.slog := by
  unfold entry_host_prologue
  rw [updV_slog, updV_slog, emit_slog, updV_slog]

theorem entry_host_epilogue_slog (m : machine_t) (env : addr_env_t)
    (a b : Nat) : (entry_host_epilogue m env a b).slog = m.slog := by
  unfold entry_host_epilogue
  by_cases ht : m.v.state_ = vcpu_state.terminated
  · rw [if_pos ht, emit_slog]
  · rw [if_neg ht]
    by_cases hs : m.v.suppress_rip_adjust_
    · rw [if_pos hs, emit_slog, updV_slog, emit_slog, updV_slog, emit_slog,
        updV_slog, emit_slog, updV_slog]
    · rw [if_neg hs, emit_slog, updV_slog, emit_slog, updV_slog, emit_slog,
        updV_slog, emit_slog, updV_slog, updV_slog]

theorem slog_ok_entry_host (m : machine_t) (env : addr_env_t)
    (acts : List hact) (h : slog_ok m) : slog_ok (entry_host m env acts) := by
  unfold entry_host
  refine slog_ok_of_eq _ _ (entry_host_epilogue_slog _ env _ _) ?_
  exact slog_ok_run_handler acts _
    (slog_ok_of_eq m _ (entry_host_prologue_slog m) h)

theorem slog_ok_load_vmxon (m : machine_t) (o : vmx_oracle)
    (hst : m.v.state_ = vcpu_state.off) (h : slog_ok m) :
    slog_ok (load_vmxon m o) := by
  by_cases hf : m.faulted
  · exact slog_ok_of_eq m _ (by simp [load_vmxon, hf]) h
  · by_cases hc : (o.vmxon_ok && !m.hw.vmx_root) = true
    · have hres : (load_vmxon m o).slog =
          m.slog ++ [(vcpu_state.off, vcpu_state.initializing)] := by
        simp [load_vmxon, assign_state, hf, hc, hst]
      intro p hp
      rw [hres] at hp
      rcases List.mem_append.1 hp with hp | hp
      · exact h p hp
      · rw [List.mem_singleton] at hp
        subst hp
        exact Or.inl (by decide)
    · have hres : load_vmxon m o =
          error (assign_state
            { m with hw := { m.hw with cr4_vmx_enable := true }
                   , trace := m.trace ++ [hw_event.write_cr4, hw_event.vmxon] }
            vcpu_state.terminated) := by
        simp [load_vmxon, hf, hc]
      rw [hres]
      apply slog_ok_terminate
      intro p hp
      have hslog : (assign_state
          { m with hw := { m.hw with cr4_vmx_enable := true }
                 , trace := m.trace ++ [hw_event.write_cr4, hw_event.vmxon] }
          vcpu_state.terminated).slog =
          m.slog ++ [(vcpu_state.off, vcpu_state.terminated)] := by
        simp [assign_state, hf, hst]
      rw [hslog] at hp
      rcases List.mem_append.1 hp with hp | hp
      · exact h p hp
      · rw [List.mem_singleton] at hp
        subst hp
        exact Or.inl (by decide)

theorem slog_ok_load_vmcs (m : machine_t) (o : vmx_oracle) (h : slog_ok m) :
    slog_ok (load_vmcs m o) := by
  unfold load_vmcs
  by_cases hfa : (hvpp_assert m (decide (m.v.state_ = vcpu_state.initializing))).faulted
  · rw [if_pos hfa]
    exact slog_ok_of_eq m _ (hvpp_assert_slog m _) h
  · rw [if_neg hfa]
    have hbase : ∀ tr : List hw_event,
        slog_ok { hvpp_assert m (decide (m.v.state_ = vcpu_state.initializing)) with
          trace := tr } :=
      fun tr => slog_ok_of_eq m _ (hvpp_assert_slog m _) h
    by_cases h1 : (o.vmclear_ok && o.vmptrld_ok) = true
    · rw [if_pos h1]
      exact hbase _
    · rw [if_neg h1]
      by_cases h2 : o.vmclear_ok = true
      · rw [if_pos h2]
        exact slog_ok_terminate _ (hbase _)
      · rw [if_neg h2]
        exact slog_ok_terminate _ (hbase _)

theorem setup_host_core (m : machine_t) (env : addr_env_t) :
    (setup_host m env).v.state_ = m.v.state_ ∧ (setup_host m env).hw = m.hw ∧
    (setup_host m env).slog = m.slog ∧ (setup_host m env).faulted = m.faulted := by
  unfold setup_host
  split <;> simp

theorem setup_guest_core (m : machine_t) (env : addr_env_t) :
    (setup_guest m env).v.state_ = m.v.state_ ∧ (setup_guest m env).hw = m.hw ∧
    (setup_guest m env).slog = m.slog ∧ (setup_guest m env).faulted = m.faulted := by
  unfold setup_guest
  split <;> simp

theorem slog_ok_setup_fst (m : machine_t) (o : vmx_oracle) (env : addr_env_t)
    (acts : List hact) (hst : m.v.state_ = vcpu_state.off) (h : slog_ok m) :
    slog_ok (setup m o env acts).1 := by
  have hbase : slog_ok (emit (run_handler (setup_guest (setup_host
      (load_vmcs (load_vmxon m o) o) env) env) acts) .vmlaunch) := by
    refine slog_ok_of_eq _ _ (emit_slog _ _) ?_
    refine slog_ok_run_handler acts _ ?_
    refine slog_ok_of_eq _ _ (setup_guest_core _ env).2.2.1 ?_
    refine slog_ok_of_eq _ _ (setup_host_core _ env).2.2.1 ?_
    exact slog_ok_load_vmcs _ o (slog_ok_load_vmxon m o hst h)
  rw [setup_eq]
  split
  · exact hbase
  · exact slog_ok_terminate _ hbase

/-! Invariant lemmas for the guest-entry path. -/

theorem load_vmcs_of_faulted (m : machine_t) (o : vmx_oracle)
    (h : m.faulted = true) : load_vmcs m o = m := by
  simp [load_vmcs, hvpp_assert, h]

theorem run_hact_of_faulted (m : machine_t) (a : hact) (h : m.faulted = true) :
    run_hact m a = m := by
  cases a <;>
    simp [run_hact, updV, suppress_rip_adjust, ept_enable, ept_index,
      ept_disable, hvpp_assert, emit, terminate, h]

theorem launch_inv_load_vmxon (m : machine_t) (o : vmx_oracle)
    (hf : m.faulted = false) : launch_inv (load_vmxon m o) := by
  unfold launch_inv
  by_cases hc : (o.vmxon_ok && !m.hw.vmx_root) = true
  · right; left
    constructor <;> simp [load_vmxon, assign_state, hf, hc]
  · left
    simp [load_vmxon, error, terminate, assign_state, hf, hc]

theorem launch_inv_load_vmcs (m : machine_t) (o : vmx_oracle)
    (h : launch_inv m) : launch_inv (load_vmcs m o) := by
  by_cases hf : m.faulted
  · rw [load_vmcs_of_faulted m o hf]
    exact h
  · rcases h with h | h | h
    · exact absurd h hf
    · by_cases hcl : o.vmclear_ok = true
      · by_cases hpt : o.vmptrld_ok = true
        · right; left
          constructor <;> simp [load_vmcs, hvpp_assert, hf, h.1, h.2, hcl, hpt]
        · have hpt2 : o.vmptrld_ok = false := by
            rwa [Bool.not_eq_true] at hpt
          right; right
          constructor <;>
            simp [load_vmcs, hvpp_assert, error, terminate, hf, h.1, hcl, hpt2]
      · have hcl2 : o.vmclear_ok = false := by
          rwa [Bool.not_eq_true] at hcl
        right; right
        constructor <;>
          simp [load_vmcs, hvpp_assert, error, terminate, hf, h.1, hcl2]
    · left
      simp [load_vmcs, hvpp_assert, hf, h.1]

theorem launch_inv_run_hact (m : machine_t) (a : hact) (h : launch_inv m) :
    launch_inv (run_hact m a) := by
  by_cases hf : m.faulted
  · rw [run_hact_of_faulted m a hf]
    exact h
  · rcases h with h | h | h
    · exact absurd h hf
    · rcases run_hact_cases m a with ⟨h1, h2, _, _⟩ | heq
      · right; left
        rw [h1, h2]
        exact h
      · rw [heq]
        right; right
        have hoff : ¬(m.v.state_ = vcpu_state.off ∨
            m.v.state_ = vcpu_state.terminated) := by
          rw [h.1]; simp
        constructor <;> simp [terminate, hf, hoff]
    · rcases run_hact_cases m a with ⟨h1, h2, _, h4⟩ | heq
      · rcases h4 with h4 | h4
        · right; right
          rw [h1, h2]
          exact h
        · exact Or.inl h4
      · rw [heq]
        left
        simp [terminate, hf, h.1]

theorem launch_inv_run_handler (acts : List hact) :
    ∀ m, launch_inv m → launch_inv (run_handler m acts) := by
  induction acts with
  | nil => exact fun m h => h
  | cons a as ih =>
      intro m h
      exact ih (run_hact m a) (launch_inv_run_hact m a h)

theorem emit_core (m : machine_t) (e : hw_event) :
    (emit m e).v = m.v ∧ (emit m e).hw = m.hw ∧ (emit m e).faulted = m.faulted := by
  unfold emit
  split <;> simp

theorem setup_entered (m : machine_t) (o : vmx_oracle) (env : addr_env_t)
    (acts : List hact) (hf : m.faulted = false)
    (h2 : (setup m o env acts).2 = true) :
    (setup m o env acts).1.v.state_ = vcpu_state.initializing ∧
    (setup m o env acts).1.faulted = false := by
  have i1 := launch_inv_load_vmxon m o hf
  have i2 := launch_inv_load_vmcs _ o i1
  have i3 : launch_inv (setup_host (load_vmcs (load_vmxon m o) o) env) := by
    have hc := setup_host_core (load_vmcs (load_vmxon m o) o) env
    unfold launch_inv at i2 ⊢
    rw [hc.1, hc.2.1, hc.2.2.2]
    exact i2
  have i4 : launch_inv (setup_guest (setup_host
      (load_vmcs (load_vmxon m o) o) env) env) := by
    have hc := setup_guest_core (setup_host (load_vmcs (load_vmxon m o) o) env) env
    unfold launch_inv at i3 ⊢
    rw [hc.1, hc.2.1, hc.2.2.2]
    exact i3
  have i5 := launch_inv_run_handler acts _ i4
  have hem := emit_core (run_handler (setup_guest (setup_host
      (load_vmcs (load_vmxon m o) o) env) env) acts) .vmlaunch
  have hinv : launch_inv (emit (run_handler (setup_guest (setup_host
      (load_vmcs (load_vmxon m o) o) env) env) acts) .vmlaunch) := by
    unfold launch_inv at i5 ⊢
    rw [hem.1, hem.2.1, hem.2.2]
    exact i5
  rw [setup_eq] at h2 ⊢
  by_cases hc : (!(emit (run_handler (setup_guest (setup_host
        (load_vmcs (load_vmxon m o) o) env) env) acts) .vmlaunch).faulted
      && (emit (run_handler (setup_guest (setup_host
        (load_vmcs (load_vmxon m o) o) env) env) acts) .vmlaunch).hw.vmx_root
      && o.vmlaunch_ok) = true
  · rw [if_pos hc]
    rw [Bool.and_eq_true, Bool.and_eq_true] at hc
    have hfX : (emit (run_handler (setup_guest (setup_host
        (load_vmcs (load_vmxon m o) o) env) env) acts) .vmlaunch).faulted = false := by
      have := hc.1.1
      rwa [Bool.not_eq_true'] at this
    have hroot := hc.1.2
    rcases hinv with h | h | h
    · rw [hfX] at h; cases h
    · exact ⟨h.1, hfX⟩
    · rw [h.2] at hroot; cases hroot
  · rw [if_neg hc] at h2
    simp at h2

theorem slog_ok_launch (m : machine_t) (o : vmx_oracle) (env : addr_env_t)
    (acts : List hact) (hst : m.v.state_ = vcpu_state.off)
    (hf : m.faulted = false) (h : slog_ok m) : slog_ok (launch m o env acts) := by
  have hd : launch_dispatch m o env acts vcpu_state.off.code =
      (match setup m o env acts with
       | (ms, true) => (ms, launch_return.entered_guest)
       | (ms, false) => (ms, launch_return.returned)) := by
    simp [launch_dispatch, vcpu_state.code]
  have hsf := slog_ok_setup_fst m o env acts hst h
  rcases hsetup : setup m o env acts with ⟨ms, b⟩
  rw [hsetup] at hd hsf
  simp only at hsf
  cases b
  · simp only at hd
    unfold launch
    rw [hd]
    exact hsf
  · simp only at hd
    have hent := setup_entered m o env acts hf (by rw [hsetup])
    rw [hsetup] at hent
    simp only at hent
    unfold launch
    rw [hd]
    show slog_ok (launch_dispatch (entry_guest ms) o env acts
      (entry_guest ms).v.guest_context_rax).1
    have heg : (entry_guest ms).v.guest_context_rax = vcpu_state.launching.code := by
      simp [entry_guest, updV, hent.2]
    rw [heg]
    have hd2 : launch_dispatch (entry_guest ms) o env acts
        vcpu_state.launching.code =
        (assign_state (entry_guest ms) vcpu_state.running,
         launch_return.returned) := by
      simp [launch_dispatch, vcpu_state.code]
    rw [hd2]
    have hegf : (entry_guest ms).faulted = false := by
      rw [entry_guest, updV_faulted]
      exact hent.2
    have hegs : (entry_guest ms).v.state_ = vcpu_state.initializing := by
      simp [entry_guest, updV, hent.2, hent.1]
    have hres : (assign_state (entry_guest ms) vcpu_state.running).slog =
        (entry_guest ms).slog ++
          [(vcpu_state.initializing, vcpu_state.running)] := by
      simp [assign_state, hegf, hegs]
    intro p hp
    simp only [hres] at hp
    rcases List.mem_append.1 hp with hp | hp
    · have hms : slog_ok (entry_guest ms) := by
        refine slog_ok_of_eq ms _ ?_ hsf
        rw [entry_guest, updV_slog]
      exact hms p hp
    · rw [List.mem_singleton] at hp
      subst hp
      exact Or.inl (by decide)

theorem ept_disable_slog (m : machine_t) : (ept_disable m).slog = m.slog :=
  (ept_disable_core m).2.2.1

theorem slog_ok_vcpu_destruct (m : machine_t) (env : addr_env_t)
    (acts : List hact) (h : slog_ok m) : slog_ok (vcpu_destruct m env acts) := by
  unfold vcpu_destruct
  refine slog_ok_of_eq _ _ (ept_disable_slog _) ?_
  refine slog_ok_entry_host _ env acts ?_
  by_cases hf : m.faulted
  · exact slog_ok_of_eq m _ (by rw [assign_state_of_faulted m _ hf]) h
  · have hres : (assign_state m vcpu_state.terminating).slog =
        m.slog ++ [(m.v.state_, vcpu_state.terminating)] := by
      simp [assign_state, hf]
    intro p hp
    rw [hres] at hp
    rcases List.mem_append.1 hp with hp | hp
    · exact h p hp
    · rw [List.mem_singleton] at hp
      subst hp
      exact Or.inr rfl

theorem slog_ok_foldl_exits (env : addr_env_t) (exits : List (List hact)) :
    ∀ m, slog_ok m →
      slog_ok (exits.foldl (fun m acts => entry_host m env acts) m) := by
  induction exits with
  | nil => exact fun m h => h
  | cons e es ih =>
      intro m h
      exact ih (entry_host m env e) (slog_ok_entry_host m env e h)

/-- C1 (amended): over every modelled lifecycle (construction, launch
with any oracle and handler-setup actions, any sequence of dispatched
exits with any handler actions, optional explicit terminate,
destruction), every recorded assignment to the lifecycle state moves
strictly forward in the chain
`off → initializing → launching → running → terminating → terminated`
by enumerator rank — possibly skipping steps (a successful launch
assigns `initializing` and then `running`, `launching` being used only
as a context-capture sentinel; `terminate` and the failure paths assign
`terminated` directly) — with the single exception of the destructor's
entry assignment of `terminating`, which may follow a later state. -/
theorem lifecycle_state_monotone (hw : hw_state_t) (exit_len : Nat)
    (o : vmx_oracle) (env : addr_env_t) (setup_acts : List hact)
    (exits : List (List hact)) (do_term : Bool) (dtor_acts : List hact) :
    ∀ p ∈ (lifecycle_run hw exit_len o env setup_acts exits do_term
        dtor_acts).slog,
      p.1.code < p.2.code ∨ p.2 = vcpu_state.terminating := by
  have h0 : slog_ok (machine_construct hw exit_len) := by
    intro p hp
    simp [machine_construct] at hp
  have h1 := slog_ok_launch (machine_construct hw exit_len) o env setup_acts
    rfl rfl h0
  have h2 := slog_ok_foldl_exits env exits _ h1
  have h3 : slog_ok (if do_term
      then terminate (exits.foldl (fun m acts => entry_host m env acts)
        (launch (machine_construct hw exit_len) o env setup_acts))
      else exits.foldl (fun m acts => entry_host m env acts)
        (launch (machine_construct hw exit_len) o env setup_acts)) := by
    cases do_term
    · simpa using h2
    · simpa using slog_ok_terminate _ h2
  exact slog_ok_vcpu_destruct _ env dtor_acts h3

/-- C1 counterexample: already on the plain successful lifecycle
(construct, launch, one exit, explicit terminate, destruct) the
recorded state assignments are off→initializing, initializing→running,
running→terminated and terminated→terminating; the second one skips the
`launching` step of the claimed chain (and the last one moves
backwards), so it is false that every state change follows the claimed
strict order. -/
theorem lifecycle_chain_counterexample :
    (lifecycle_run hw_ex 3 oracle_ok env_ex [] [[]] true []).slog =
      [(vcpu_state.off, vcpu_state.initializing),
       (vcpu_state.initializing, vcpu_state.running),
       (vcpu_state.running, vcpu_state.terminated),
       (vcpu_state.terminated, vcpu_state.terminating)] ∧
    ((lifecycle_run hw_ex 3 oracle_ok env_ex [] [[]] true []).slog.all
      (fun p => chain_next p.1 == some p.2)) = false := by
  constructor
  · decide
  · decide

/-- C1 witness: the first recorded assignment of the plain successful
lifecycle, off→initializing, satisfies the amended discipline. -/
theorem lifecycle_state_monotone_witness :
    (vcpu_state.off, vcpu_state.initializing) ∈
      (lifecycle_run hw_ex 3 oracle_ok env_ex [] [[]] true []).slog ∧
    ((vcpu_state.off).code < (vcpu_state.initializing).code ∨
      vcpu_state.initializing = vcpu_state.terminating) :=
  ⟨by decide,
   lifecycle_state_monotone hw_ex 3 oracle_ok env_ex [] [[]] true []
     (vcpu_state.off, vcpu_state.initializing) (by decide)⟩

end Hvpp
